import Mathlib

/-!
# Verification of the amnesia-bot purge logic (`purgebot.py`)

A shallow embedding of the message-retention bot: the parse of duration
strings (`parse_time`, lines 30-41), the per-group retention state and the
persisted store (lines 49-89), the purge engine (`purge`, lines 92-158) and
the event handlers (`start`, `stop`, `lifetime`, `help`, `echo`,
lines 161-240).

Conventions of the embedding:
* timestamps are integers (seconds); a `timedelta` is kept as its four
  constructor fields, compared through its total number of seconds;
* the Python dicts (`store['groups']` and each group's `messages`) are
  association lists from `Nat` keys, with `lookupPair` / `setPair` /
  `delPair` mirroring indexing, assignment and `del`;
* platform effects are data: the pinned message id of `bot.get_chat` is a
  parameter, attempted `bot.delete_message` calls are returned as a list of
  ids, replies are returned as a list of `Reply` values;
* `telegram.error.BadRequest` on deletion is swallowed by the code, so an
  attempted deletion needs no failure branch here.
-/

/-- One tracked message, the value stored in a group's `messages` dict
(line 237): `{'message_id': ..., 'date': ...}`. -/
structure TrackedMsg where
  message_id : Nat
  date : Int
deriving DecidableEq, Repr

/-- Per-group retention state, the value created at line 175:
`{'messages': dict(), 'latest_deleted_message_id': None, 'lifetime': ...}`.
The lifetime is kept as a total number of seconds (all lifetimes the
program builds are non-negative whole seconds). -/
structure GroupState where
  messages : List (Nat × TrackedMsg)
  latest_deleted_message_id : Option Nat
  lifetime : Nat
deriving DecidableEq, Repr

/-- A Python `datetime.timedelta` as built by `parse_time`:
`timedelta(days=..., hours=..., minutes=..., seconds=...)`. -/
structure Timedelta where
  days : Nat
  hours : Nat
  minutes : Nat
  seconds : Nat
deriving DecidableEq, Repr

/-- `timedelta.total_seconds()` for the whole-second deltas built here. -/
def Timedelta.total (t : Timedelta) : Nat :=
  ((t.days * 24 + t.hours) * 60 + t.minutes) * 60 + t.seconds

/-- The named groups of the regex at line 30:
`((?P<days>\d+?)d)?((?P<hours>\d+?)hr)?((?P<minutes>\d+?)m)?((?P<seconds>\d+?)s)?`. -/
structure RegexGroups where
  days : Option Nat
  hours : Option Nat
  minutes : Option Nat
  seconds : Option Nat
deriving DecidableEq, Repr

/-- Python `int` of a non-empty decimal digit string. -/
def digitsToNat (ds : List Char) : Nat :=
  ds.foldl (fun acc c => 10 * acc + (c.toNat - 48)) 0

/-- The digits at the front of the input. -/
def takeDigits (s : List Char) : List Char :=
  s.takeWhile (fun c => c.isDigit)

/-- The input with its leading digits removed. -/
def dropDigits (s : List Char) : List Char :=
  s.dropWhile (fun c => c.isDigit)

/-- One optional regex group `((?P<g>\d+?)u)?` with a one-character unit
`u`: the lazy `\d+?` can only consume digits, and the unit is not a digit,
so the group matches exactly when a non-empty run of digits is followed by
the unit character, consuming both; otherwise it matches the empty string
and consumes nothing. -/
def segUnit1 (u : Char) (s : List Char) : Option Nat × List Char :=
  let ds := takeDigits s
  if ds = [] then (none, s)
  else
    match dropDigits s with
    | c :: rest => if c = u then (some (digitsToNat ds), rest) else (none, s)
    | [] => (none, s)

/-- The optional hours group `((?P<hours>\d+?)hr)?`, whose unit is the
two-character literal `hr`. -/
def segHr (s : List Char) : Option Nat × List Char :=
  let ds := takeDigits s
  if ds = [] then (none, s)
  else
    match dropDigits s with
    | c1 :: c2 :: rest =>
        if c1 = 'h' ∧ c2 = 'r' then (some (digitsToNat ds), rest) else (none, s)
    | _ => (none, s)

/-- `regex.match(time_str)` for the pattern of line 30, anchored at the
start of the string: the four optional groups are tried in order, each on
the input left over by the previous one; any unmatched suffix is outside
the match.  `re.match` returns `None` only when the pattern cannot match at
position 0, and a pattern made of optional groups always matches (possibly
the empty string), so the result is always `some`. -/
def regexMatchGroups (s : List Char) : Option RegexGroups :=
  let pd := segUnit1 'd' s
  let ph := segHr pd.2
  let pm := segUnit1 'm' ph.2
  let ps := segUnit1 's' pm.2
  some { days := pd.1, hours := ph.1, minutes := pm.1, seconds := ps.1 }

/-- `parse_time` (lines 32-41): match the regex, keep the groups that
matched (a matched group is a non-empty digit string, hence truthy), and
build the `timedelta`; a group that did not match contributes the
`timedelta` default 0. -/
def parse_time (time_str : String) : Option Timedelta :=
  match regexMatchGroups time_str.data with
  | none => none
  | some parts =>
      some { days := parts.days.getD 0, hours := parts.hours.getD 0,
             minutes := parts.minutes.getD 0, seconds := parts.seconds.getD 0 }

/-- Dict indexing `d[k]` as a query: the value at the first matching key. -/
def lookupPair {α : Type} : List (Nat × α) → Nat → Option α
  | [], _ => none
  | p :: t, k => if p.1 = k then some p.2 else lookupPair t k

/-- Dict assignment `d[k] = v`: replace the value at an existing key,
otherwise add the binding. -/
def setPair {α : Type} : List (Nat × α) → Nat → α → List (Nat × α)
  | [], k, v => [(k, v)]
  | p :: t, k, v => if p.1 = k then (k, v) :: t else p :: setPair t k v

/-- `try: del d[k] except KeyError: pass` — drop the binding if present. -/
def delPair {α : Type} (l : List (Nat × α)) (k : Nat) : List (Nat × α) :=
  l.filter (fun p => p.1 != k)

/-- Python `min` over a list, `None` on the empty list (the
`except ValueError` branch at lines 130-133). -/
def listMin : List Nat → Option Nat
  | [] => none
  | h :: t =>
      match listMin t with
      | none => some h
      | some m => some (min h m)

/-- The sort key of line 103: order tracked messages by `message_id`. -/
def msgLe (a b : TrackedMsg) : Prop :=
  a.message_id ≤ b.message_id

instance : DecidableRel msgLe := fun a b => Nat.decLe a.message_id b.message_id

instance : IsTotal TrackedMsg msgLe := ⟨fun a b => Nat.le_total a.message_id b.message_id⟩

instance : IsTrans TrackedMsg msgLe := ⟨fun _ _ _ h1 h2 => Nat.le_trans h1 h2⟩

/-- Line 103: the tracked messages whose age has reached the lifetime,
sorted by message id ascending:
`sorted(filter(lambda m: date - m['date'] >= group['lifetime'], group['messages'].values()), key=...)`. -/
def sortedOld (group : GroupState) (date : Int) : List TrackedMsg :=
  List.insertionSort msgLe
    ((group.messages.map Prod.snd).filter
      (fun m => decide ((group.lifetime : Int) ≤ date - m.date)))

/-- Lines 98-101: `delete_from` before the adjustment — the stored
`latest_deleted_message_id`, or 0 when it is `None`. -/
def deleteFrom0 (group : GroupState) : Nat :=
  match group.latest_deleted_message_id with
  | some l => l
  | none => 0

/-- Lines 112-117: lower `delete_from` to the lowest qualifying message id
when that id is below it. -/
def deleteFrom (group : GroupState) (date : Int) : Nat :=
  match (sortedOld group date).head? with
  | some firstMsg =>
      if firstMsg.message_id < deleteFrom0 group then firstMsg.message_id
      else deleteFrom0 group
  | none => deleteFrom0 group

/-- Lines 119-128: the exclusion set, holding the pinned message id when
the chat has one. -/
def excludeList (pinned : Option Nat) : List Nat :=
  match pinned with
  | some p => [p]
  | none => []

/-- Line 138: `[i for i in range(delete_from, delete_through + 1) if i not in exclude]`. -/
def toDelete (delete_from delete_through : Nat) (exclude : List Nat) : List Nat :=
  (List.range' delete_from (delete_through + 1 - delete_from)).filter
    (fun i => !exclude.contains i)

/-- Lines 151-156: the value `latest_deleted_message_id` is assigned after
one deletion: the deleted id, lowered to the lowest excluded id when that
lies below it. -/
def clampLatest (lowest_excluded : Option Nat) (message_id : Nat) : Nat :=
  match lowest_excluded with
  | some p => if p < message_id then p else message_id
  | none => message_id

/-- One iteration of the loop at lines 140-156 on the pair
(tracked messages, latest_deleted_message_id): the platform deletion is
attempted (recorded by the caller), the id is dropped from the tracked
messages if present, and `latest_deleted_message_id` is reassigned. -/
def purgeStep (lowest_excluded : Option Nat)
    (st : List (Nat × TrackedMsg) × Option Nat) (message_id : Nat) :
    List (Nat × TrackedMsg) × Option Nat :=
  (delPair st.1 message_id, some (clampLatest lowest_excluded message_id))

/-- The body of `purge` once the group is found (lines 98-156), as the
update of that group's state paired with the ids whose deletion is
attempted. `none` is the early return at lines 107-110: no message
qualifies, nothing is touched. -/
def purgeGroup (group : GroupState) (date : Int) (pinned : Option Nat) :
    Option (GroupState × List Nat) :=
  match (sortedOld group date).getLast? with
  | none => none
  | some lastMsg =>
      let dels := toDelete (deleteFrom group date) lastMsg.message_id (excludeList pinned)
      let final := dels.foldl (purgeStep (listMin (excludeList pinned)))
        (group.messages, group.latest_deleted_message_id)
      some ({ group with messages := final.1, latest_deleted_message_id := final.2 }, dels)

/-- `purge(bot, chat_id, date)` (lines 92-158): unknown groups are ignored
(line 93), a pass with no qualifying message returns without touching the
store, and otherwise the group's entry is overwritten with the purged
state.  Returns the new store and the ids whose platform deletion was
attempted. -/
def purge (groups : List (Nat × GroupState)) (chat_id : Nat) (date : Int)
    (pinned : Option Nat) : List (Nat × GroupState) × List Nat :=
  match lookupPair groups chat_id with
  | none => (groups, [])
  | some group =>
      match purgeGroup group date pinned with
      | none => (groups, [])
      | some r => (setPair groups chat_id r.1, r.2)

/-- Replies the handlers send through `reply_text`. -/
inductive Reply where
  | activated
  | deactivated
  | runStartFirst
  | currentLifetime (total : Nat)
  | lifetimeSetTo (total : Nat)
  | usageHint
  | sorryDave
  | helpText
deriving DecidableEq, Repr

/-- `user_is_admin` (lines 161-165): the sender's id is among the chat's
administrator ids. -/
def user_is_admin (admins : List Nat) (sender : Nat) : Prop :=
  sender ∈ admins

instance (admins : List Nat) (sender : Nat) : Decidable (user_is_admin admins sender) :=
  inferInstanceAs (Decidable (sender ∈ admins))

/-- `/lifetime` (lines 196-221).  `arg` is `text.split()[1]` when present
(`none` is the `IndexError` branch).  The `except KeyError` branch is kept
as the case `parse_time` returns no match.  A valid non-zero duration is
stored; a zero one raises `DeltaEmpty` and is refused.  Every path through
the body ends in a purge pass, except the early `"Run /start first!"`
return of line 204. -/
def lifetime (groups : List (Nat × GroupState)) (chat_id : Nat)
    (arg : Option String) (date : Int) (pinned : Option Nat)
    (admins : List Nat) (sender : Nat) :
    List (Nat × GroupState) × List Reply :=
  if user_is_admin admins sender then
    match lookupPair groups chat_id with
    | none => (groups, [Reply.runStartFirst])
    | some group =>
        let step : List (Nat × GroupState) × Reply :=
          match arg with
          | none => (groups, Reply.currentLifetime group.lifetime)
          | some a =>
              match parse_time a with
              | none => (groups, Reply.usageHint)
              | some delta =>
                  if delta.total = 0 then (groups, Reply.sorryDave)
                  else
                    (setPair groups chat_id { group with lifetime := delta.total },
                     Reply.lifetimeSetTo delta.total)
        ((purge step.1 chat_id date pinned).1, [step.2])
  else (groups, [])

/-- `/start` (lines 168-180): admin only; a group not yet in the store is
given a fresh state with the 100-year default lifetime; then the reply is
sent and `lifetime` is invoked on the same update (whose `arg` is
forwarded; a plain `/start` has none). -/
def start (groups : List (Nat × GroupState)) (chat_id : Nat)
    (arg : Option String) (date : Int) (pinned : Option Nat)
    (admins : List Nat) (sender : Nat) :
    List (Nat × GroupState) × List Reply :=
  if user_is_admin admins sender then
    let groups1 :=
      match lookupPair groups chat_id with
      | none =>
          setPair groups chat_id
            { messages := [], latest_deleted_message_id := none,
              lifetime := 36500 * 86400 }
      | some _ => groups
    let r := lifetime groups1 chat_id arg date pinned admins sender
    (r.1, Reply.activated :: r.2)
  else (groups, [])

/-- `/stop` (lines 183-193): admin only; the group's state is discarded if
present, and the deactivation reply is sent either way. -/
def stop (groups : List (Nat × GroupState)) (chat_id : Nat)
    (admins : List Nat) (sender : Nat) :
    List (Nat × GroupState) × List Reply :=
  if user_is_admin admins sender then
    (match lookupPair groups chat_id with
     | some _ => delPair groups chat_id
     | none => groups,
     [Reply.deactivated])
  else (groups, [])

/-- `/help` (lines 224-225): replies `'Help!'`; the handler performs no
admin check and never touches the store. -/
def help (groups : List (Nat × GroupState)) (admins : List Nat) (sender : Nat) :
    List (Nat × GroupState) × List Reply :=
  (groups, [Reply.helpText])

/-- Python equality between an `int` and a `str` is always `False`. -/
def pyIntEqStr (n : Nat) (s : String) : Bool :=
  false

/-- Line 236's membership test `message_id in store['groups'][chat_id]`:
it asks whether the integer `message_id` is a key of the *group dict*,
whose keys are the three fixed field-name strings — not a key of the
`messages` dict.  An `int` never equals a `str`, so the test is always
`False`. -/
def groupDictContainsInt (group : GroupState) (message_id : Nat) : Bool :=
  ["messages", "latest_deleted_message_id", "lifetime"].any (pyIntEqStr message_id)

/-- `echo` (lines 228-240): an incoming text message in a tracked group is
recorded under its id (subject to line 236's test), then a purge pass runs
at the message's date. -/
def echo (groups : List (Nat × GroupState)) (chat_id message_id : Nat)
    (date : Int) (pinned : Option Nat) : List (Nat × GroupState) :=
  match lookupPair groups chat_id with
  | none => groups
  | some group =>
      let groups1 :=
        if groupDictContainsInt group message_id then groups
        else
          setPair groups chat_id
            { group with
                messages := setPair group.messages message_id
                  { message_id := message_id, date := date } }
      (purge groups1 chat_id date pinned).1

/-! ## Helper lemmas about the store and list operations -/

theorem lookupPair_setPair {α : Type} (l : List (Nat × α)) (k : Nat) (v : α) :
    lookupPair (setPair l k v) k = some v := by
  induction l with
  | nil => simp [setPair, lookupPair]
  | cons p t ih =>
      by_cases h : p.1 = k
      · simp [setPair, h, lookupPair]
      · simp [setPair, h, lookupPair, ih]

theorem mem_delPair {α : Type} {l : List (Nat × α)} {k : Nat} {p : Nat × α}
    (hp : p ∈ delPair l k) : p ∈ l ∧ p.1 ≠ k := by
  have h := List.mem_filter.mp hp
  refine ⟨h.1, ?_⟩
  simpa using h.2

theorem exists_getLast_of_ne_nil {α : Type} {l : List α} (h : l ≠ []) :
    ∃ m, l.getLast? = some m := by
  induction l with
  | nil => exact absurd rfl h
  | cons a t ih =>
      cases t with
      | nil => exact ⟨a, rfl⟩
      | cons b t2 =>
          obtain ⟨m, hm⟩ := ih (by simp)
          exact ⟨m, by rw [List.getLast?_cons_cons]; exact hm⟩

theorem exists_getLast_of_mem {α : Type} {l : List α} {x : α} (hx : x ∈ l) :
    ∃ m, l.getLast? = some m :=
  exists_getLast_of_ne_nil (List.ne_nil_of_mem hx)

theorem mem_of_getLast_opt {α : Type} {l : List α} {m : α}
    (hm : l.getLast? = some m) : m ∈ l := by
  induction l with
  | nil => cases hm
  | cons a t ih =>
      cases t with
      | nil =>
          simp only [List.getLast?_singleton, Option.some.injEq] at hm
          simp [hm]
      | cons b t2 =>
          rw [List.getLast?_cons_cons] at hm
          exact List.mem_cons_of_mem a (ih hm)

theorem pairwise_getLast_max {α : Type} (f : α → Nat) {l : List α}
    (h : l.Pairwise (fun a b => f a ≤ f b)) {x : α} (hx : x ∈ l) {m : α}
    (hm : l.getLast? = some m) : f x ≤ f m := by
  induction l with
  | nil => cases hx
  | cons a t ih =>
      have hhead := (List.pairwise_cons.mp h).1
      have htail := (List.pairwise_cons.mp h).2
      cases t with
      | nil =>
          simp only [List.getLast?_singleton, Option.some.injEq] at hm
          cases hx with
          | head => simp [hm]
          | tail _ hx2 => cases hx2
      | cons b t2 =>
          rw [List.getLast?_cons_cons] at hm
          cases hx with
          | head => exact hhead m (mem_of_getLast_opt hm)
          | tail _ hx2 => exact ih htail hx2 hm

theorem pairwise_head_min {α : Type} (f : α → Nat) {l : List α}
    (h : l.Pairwise (fun a b => f a ≤ f b)) {x : α} (hx : x ∈ l) {hd : α}
    (hh : l.head? = some hd) : f hd ≤ f x := by
  cases l with
  | nil => cases hx
  | cons a t =>
      simp only [List.head?_cons, Option.some.injEq] at hh
      subst hh
      cases hx with
      | head => exact Nat.le_refl _
      | tail _ hx2 => exact (List.pairwise_cons.mp h).1 x hx2

theorem mem_range'_bounds {s n x : Nat} (h : x ∈ List.range' s n) :
    s ≤ x ∧ x < s + n := by
  induction n generalizing s with
  | zero => cases h
  | succ n ih =>
      have : List.range' s (n + 1) = s :: List.range' (s + 1) n := rfl
      rw [this] at h
      cases h with
      | head => omega
      | tail _ h2 =>
          have := ih h2
          omega

theorem mem_range'_of_bounds {s n x : Nat} (h1 : s ≤ x) (h2 : x < s + n) :
    x ∈ List.range' s n := by
  induction n generalizing s with
  | zero => omega
  | succ n ih =>
      have hr : List.range' s (n + 1) = s :: List.range' (s + 1) n := rfl
      rw [hr]
      by_cases hx : x = s
      · simp [hx]
      · exact List.mem_cons_of_mem s (ih (by omega) (by omega))

theorem range'_pairwise_le (s n : Nat) :
    (List.range' s n).Pairwise (fun a b => a ≤ b) := by
  induction n generalizing s with
  | zero => exact List.Pairwise.nil
  | succ n ih =>
      have hr : List.range' s (n + 1) = s :: List.range' (s + 1) n := rfl
      rw [hr]
      refine List.pairwise_cons.mpr ⟨?_, ih (s + 1)⟩
      intro x hx
      have := mem_range'_bounds hx
      omega

theorem toDelete_pairwise_le (a b : Nat) (exc : List Nat) :
    (toDelete a b exc).Pairwise (fun x y => x ≤ y) :=
  (range'_pairwise_le a (b + 1 - a)).filter (fun i => !exc.contains i)

theorem mem_toDelete {a b : Nat} {exc : List Nat} {i : Nat} :
    i ∈ toDelete a b exc ↔ (a ≤ i ∧ i ≤ b ∧ i ∉ exc) := by
  unfold toDelete
  rw [List.mem_filter]
  constructor
  · rintro ⟨hr, hf⟩
    have hb := mem_range'_bounds hr
    refine ⟨hb.1, by omega, ?_⟩
    simpa using hf
  · rintro ⟨h1, h2, h3⟩
    exact ⟨mem_range'_of_bounds h1 (by omega), by simpa using h3⟩

theorem purgeFold_fst_mem (lowE : Option Nat) (dels : List Nat)
    (msgs : List (Nat × TrackedMsg)) (lat : Option Nat) {p : Nat × TrackedMsg}
    (hp : p ∈ (dels.foldl (purgeStep lowE) (msgs, lat)).1) :
    p ∈ msgs ∧ p.1 ∉ dels := by
  induction dels generalizing msgs lat with
  | nil => exact ⟨hp, by simp⟩
  | cons d t ih =>
      have h2 := ih (delPair msgs d) (some (clampLatest lowE d)) hp
      have h3 := mem_delPair h2.1
      refine ⟨h3.1, ?_⟩
      intro hmem
      cases hmem with
      | head => exact h3.2 rfl
      | tail _ hmem2 => exact h2.2 hmem2

theorem purgeFold_snd (lowE : Option Nat) (dels : List Nat)
    (msgs : List (Nat × TrackedMsg)) (lat : Option Nat) {m : Nat}
    (hm : dels.getLast? = some m) :
    (dels.foldl (purgeStep lowE) (msgs, lat)).2 = some (clampLatest lowE m) := by
  induction dels generalizing msgs lat with
  | nil => cases hm
  | cons d t ih =>
      cases t with
      | nil =>
          simp only [List.getLast?_singleton, Option.some.injEq] at hm
          subst hm
          rfl
      | cons e t2 =>
          rw [List.getLast?_cons_cons] at hm
          exact ih (delPair msgs d) (some (clampLatest lowE d)) hm

/-- The purge pass never touches a group's `lifetime`: the pass either
returns early or overwrites only `messages` and
`latest_deleted_message_id`. -/
theorem purge_preserves_lifetime (groups : List (Nat × GroupState))
    (chat_id : Nat) (date : Int) (pinned : Option Nat) {g : GroupState}
    (hg : lookupPair groups chat_id = some g) :
    ∃ g2, lookupPair (purge groups chat_id date pinned).1 chat_id = some g2 ∧
      g2.lifetime = g.lifetime := by
  cases hpg : purgeGroup g date pinned with
  | none =>
      refine ⟨g, ?_, rfl⟩
      simp only [purge, hg, hpg]
  | some r =>
      refine ⟨r.1, ?_, ?_⟩
      · simp only [purge, hg, hpg]
        exact lookupPair_setPair groups chat_id r.1
      · unfold purgeGroup at hpg
        cases hl : (sortedOld g date).getLast? with
        | none => rw [hl] at hpg; cases hpg
        | some lastMsg =>
            rw [hl] at hpg
            simp only [Option.some.injEq] at hpg
            rw [← hpg]

/-! ## Structure of a purge pass -/

theorem mem_sortedOld {g : GroupState} {date : Int} {m : TrackedMsg} (k : Nat)
    (hm : (k, m) ∈ g.messages) (hold : (g.lifetime : Int) ≤ date - m.date) :
    m ∈ sortedOld g date := by
  unfold sortedOld
  rw [List.mem_insertionSort, List.mem_filter]
  exact ⟨List.mem_map.mpr ⟨(k, m), hm, rfl⟩, by simpa using hold⟩

theorem sortedOld_pairwise (g : GroupState) (date : Int) :
    (sortedOld g date).Pairwise (fun a b => a.message_id ≤ b.message_id) :=
  List.sorted_insertionSort msgLe
    ((g.messages.map Prod.snd).filter
      (fun m => decide ((g.lifetime : Int) ≤ date - m.date)))

theorem deleteFrom_le {g : GroupState} {date : Int} {m : TrackedMsg}
    (hm : m ∈ sortedOld g date) : deleteFrom g date ≤ m.message_id := by
  unfold deleteFrom
  split
  next firstMsg hh =>
    have hle : firstMsg.message_id ≤ m.message_id :=
      pairwise_head_min TrackedMsg.message_id (sortedOld_pairwise g date) hm hh
    by_cases hc : firstMsg.message_id < deleteFrom0 g
    · rw [if_pos hc]; exact hle
    · rw [if_neg hc]; omega
  next hh =>
    exfalso
    cases hsl : sortedOld g date with
    | nil => rw [hsl] at hm; cases hm
    | cons a t => rw [hsl] at hh; simp at hh

theorem mem_dels_of_qualifying {g : GroupState} {date : Int} {pinned : Option Nat}
    {m lastMsg : TrackedMsg} (hm : m ∈ sortedOld g date)
    (hl : (sortedOld g date).getLast? = some lastMsg)
    (hpin : pinned ≠ some m.message_id) :
    m.message_id ∈
      toDelete (deleteFrom g date) lastMsg.message_id (excludeList pinned) := by
  rw [mem_toDelete]
  refine ⟨deleteFrom_le hm,
    pairwise_getLast_max TrackedMsg.message_id (sortedOld_pairwise g date) hm hl, ?_⟩
  cases pinned with
  | none => simp [excludeList]
  | some p =>
      simp only [excludeList, List.mem_singleton]
      intro he
      exact hpin (by rw [he])

theorem purge_eq_of_getLast {groups : List (Nat × GroupState)} {chat_id : Nat}
    {date : Int} {pinned : Option Nat} {g : GroupState} {lastMsg : TrackedMsg}
    (hg : lookupPair groups chat_id = some g)
    (hl : (sortedOld g date).getLast? = some lastMsg) :
    purge groups chat_id date pinned =
      (setPair groups chat_id
        { g with
            messages :=
              ((toDelete (deleteFrom g date) lastMsg.message_id (excludeList pinned)).foldl
                (purgeStep (listMin (excludeList pinned)))
                (g.messages, g.latest_deleted_message_id)).1,
            latest_deleted_message_id :=
              ((toDelete (deleteFrom g date) lastMsg.message_id (excludeList pinned)).foldl
                (purgeStep (listMin (excludeList pinned)))
                (g.messages, g.latest_deleted_message_id)).2 },
       toDelete (deleteFrom g date) lastMsg.message_id (excludeList pinned)) := by
  simp only [purge, hg, purgeGroup, hl]

/-- C1: after a purge pass, every tracked message whose age has reached the
group's lifetime and whose id is not the pinned one has had its platform
deletion attempted and is gone from the group's tracked-message mapping. -/
theorem purge_removes_expired (groups : List (Nat × GroupState)) (chat_id : Nat)
    (date : Int) (pinned : Option Nat) (g : GroupState) (m : TrackedMsg)
    (hg : lookupPair groups chat_id = some g)
    (hm : (m.message_id, m) ∈ g.messages)
    (hold : (g.lifetime : Int) ≤ date - m.date)
    (hpin : pinned ≠ some m.message_id) :
    m.message_id ∈ (purge groups chat_id date pinned).2 ∧
    ∃ g2, lookupPair (purge groups chat_id date pinned).1 chat_id = some g2 ∧
      ∀ p ∈ g2.messages, p.1 ≠ m.message_id := by
  have hmem := mem_sortedOld m.message_id hm hold
  obtain ⟨lastMsg, hl⟩ := exists_getLast_of_mem hmem
  have hdel := mem_dels_of_qualifying hmem hl hpin
  rw [purge_eq_of_getLast hg hl]
  refine ⟨hdel, _, lookupPair_setPair _ _ _, ?_⟩
  intro p hp he
  have h2 := purgeFold_fst_mem (listMin (excludeList pinned))
    (toDelete (deleteFrom g date) lastMsg.message_id (excludeList pinned))
    g.messages g.latest_deleted_message_id hp
  exact h2.2 (he ▸ hdel)

theorem purge_removes_expired_witness :
    (7 : Nat) ∈ (purge [(1, ⟨[(7, ⟨7, 0⟩)], none, 10⟩)] 1 100 none).2 ∧
    ∃ g2, lookupPair (purge [(1, ⟨[(7, ⟨7, 0⟩)], none, 10⟩)] 1 100 none).1 1 = some g2 ∧
      ∀ p ∈ g2.messages, p.1 ≠ 7 :=
  purge_removes_expired [(1, ⟨[(7, ⟨7, 0⟩)], none, 10⟩)] 1 100 none
    ⟨[(7, ⟨7, 0⟩)], none, 10⟩ ⟨7, 0⟩ (by decide) (by decide) (by decide) (by decide)

/-- C2 counterexample: with no pinned message, a purge pass can *lower*
`latest_deleted_message_id`: here the only qualifying message id (5) lies
below the stored value (10), `delete_from` is lowered to 5 (line 114), and
the pass ends with `latest_deleted_message_id = 5` although nothing is
pinned. -/
theorem purge_latest_decrease_cex :
    lookupPair [(1, ⟨[(5, ⟨5, 0⟩)], some 10, 10⟩)] 1
      = some (⟨[(5, ⟨5, 0⟩)], some 10, 10⟩ : GroupState) ∧
    lookupPair (purge [(1, ⟨[(5, ⟨5, 0⟩)], some 10, 10⟩)] 1 100 none).1 1
      = some (⟨[], some 5, 10⟩ : GroupState) ∧
    ¬ ((10 : Nat) ≤ 5 ∨ (none : Option Nat) = some 5) := by
  decide

/-- C2 (amended): across a purge pass, `latest_deleted_message_id` only
increases or stays constant provided some qualifying non-pinned message id
is at least its previous value; the one exception is a pinned message
blocking further deletion, in which case the new value is the pinned id
itself.  (Without such a qualifying id the pass may lower the value, as the
counterexample shows.) -/
theorem purge_latest_monotone_unless_pinned (groups : List (Nat × GroupState))
    (chat_id : Nat) (date : Int) (pinned : Option Nat) (g : GroupState)
    (m : TrackedMsg) (L : Nat)
    (hg : lookupPair groups chat_id = some g)
    (hm : (m.message_id, m) ∈ g.messages)
    (hold : (g.lifetime : Int) ≤ date - m.date)
    (hpin : pinned ≠ some m.message_id)
    (hL : g.latest_deleted_message_id = some L)
    (hge : L ≤ m.message_id) :
    ∃ g2 v, lookupPair (purge groups chat_id date pinned).1 chat_id = some g2 ∧
      g2.latest_deleted_message_id = some v ∧ (L ≤ v ∨ pinned = some v) := by
  have hmem := mem_sortedOld m.message_id hm hold
  obtain ⟨lastMsg, hl⟩ := exists_getLast_of_mem hmem
  have hdel := mem_dels_of_qualifying hmem hl hpin
  obtain ⟨M, hM⟩ := exists_getLast_of_mem hdel
  have hMax : m.message_id ≤ M :=
    pairwise_getLast_max (fun x => x) (toDelete_pairwise_le _ _ _) hdel hM
  have hsnd := purgeFold_snd (listMin (excludeList pinned))
    (toDelete (deleteFrom g date) lastMsg.message_id (excludeList pinned))
    g.messages g.latest_deleted_message_id hM
  rw [purge_eq_of_getLast hg hl]
  refine ⟨_, clampLatest (listMin (excludeList pinned)) M,
    lookupPair_setPair _ _ _, hsnd, ?_⟩
  cases pinned with
  | none => exact Or.inl (Nat.le_trans hge hMax)
  | some p =>
      simp only [excludeList, listMin, clampLatest]
      by_cases hc : p < M
      · right
        rw [if_pos hc]
      · left
        rw [if_neg hc]
        exact Nat.le_trans hge hMax

theorem purge_latest_monotone_unless_pinned_witness :
    ∃ g2 v, lookupPair (purge [(1, ⟨[(12, ⟨12, 0⟩)], some 10, 10⟩)] 1 100 none).1 1
        = some g2 ∧
      g2.latest_deleted_message_id = some v ∧ ((10 : Nat) ≤ v ∨ (none : Option Nat) = some v) :=
  purge_latest_monotone_unless_pinned [(1, ⟨[(12, ⟨12, 0⟩)], some 10, 10⟩)] 1 100 none
    ⟨[(12, ⟨12, 0⟩)], some 10, 10⟩ ⟨12, 0⟩ 10
    (by decide) (by decide) (by decide) (by decide) (by decide) (by decide)

/-- C3: in a pass that attempts at least one deletion, the resulting
`latest_deleted_message_id` never exceeds the highest id whose deletion was
attempted, and never exceeds the pinned message's id when one exists. -/
theorem purge_latest_bounded (groups : List (Nat × GroupState)) (chat_id : Nat)
    (date : Int) (pinned : Option Nat)
    (hne : (purge groups chat_id date pinned).2 ≠ []) :
    ∃ g2 v M, lookupPair (purge groups chat_id date pinned).1 chat_id = some g2 ∧
      g2.latest_deleted_message_id = some v ∧
      (purge groups chat_id date pinned).2.getLast? = some M ∧
      (∀ d ∈ (purge groups chat_id date pinned).2, d ≤ M) ∧
      v ≤ M ∧ (∀ p, pinned = some p → v ≤ p) := by
  cases hg : lookupPair groups chat_id with
  | none => exact absurd (by simp [purge, hg]) hne
  | some g =>
      cases hl : (sortedOld g date).getLast? with
      | none => exact absurd (by simp [purge, hg, purgeGroup, hl]) hne
      | some lastMsg =>
          rw [purge_eq_of_getLast hg hl] at hne ⊢
          have hne2 : toDelete (deleteFrom g date) lastMsg.message_id (excludeList pinned) ≠ [] := hne
          obtain ⟨M, hM⟩ := exists_getLast_of_ne_nil hne2
          have hsnd := purgeFold_snd (listMin (excludeList pinned))
            (toDelete (deleteFrom g date) lastMsg.message_id (excludeList pinned))
            g.messages g.latest_deleted_message_id hM
          refine ⟨_, clampLatest (listMin (excludeList pinned)) M, M,
            lookupPair_setPair _ _ _, hsnd, hM, ?_, ?_, ?_⟩
          · intro d hd
            exact pairwise_getLast_max (fun x => x) (toDelete_pairwise_le _ _ _) hd hM
          · cases pinned with
            | none => exact Nat.le_refl M
            | some p =>
                simp only [excludeList, listMin, clampLatest]
                by_cases hc : p < M
                · rw [if_pos hc]; omega
                · rw [if_neg hc]
          · intro p hp
            subst hp
            simp only [excludeList, listMin, clampLatest]
            by_cases hc : p < M
            · rw [if_pos hc]
            · rw [if_neg hc]; omega

theorem purge_latest_bounded_witness :
    ((purge [(1, ⟨[(3, ⟨3, 0⟩)], none, 10⟩)] 1 100 (some 2)).2 ≠ []) ∧
    (∃ g2 v M, lookupPair (purge [(1, ⟨[(3, ⟨3, 0⟩)], none, 10⟩)] 1 100 (some 2)).1 1
        = some g2 ∧
      g2.latest_deleted_message_id = some v ∧
      (purge [(1, ⟨[(3, ⟨3, 0⟩)], none, 10⟩)] 1 100 (some 2)).2.getLast? = some M ∧
      (∀ d ∈ (purge [(1, ⟨[(3, ⟨3, 0⟩)], none, 10⟩)] 1 100 (some 2)).2, d ≤ M) ∧
      v ≤ M ∧ (∀ p, (some 2 : Option Nat) = some p → v ≤ p)) :=
  ⟨by decide,
   purge_latest_bounded [(1, ⟨[(3, ⟨3, 0⟩)], none, 10⟩)] 1 100 (some 2) (by decide)⟩

/-- C4: the duration examples — `"30d"` is 30 days, `""` is the zero
duration, `"1hr30m"` is 90 minutes; and the segments only count in the
grammar's fixed day-hour-minute-second order (in `"30m1hr"` the trailing
`"1hr"` is outside the match, leaving 30 minutes). -/
theorem parse_time_examples :
    (parse_time "30d").map Timedelta.total = some (30 * 86400) ∧
    (parse_time "").map Timedelta.total = some 0 ∧
    (parse_time "1hr30m").map Timedelta.total = some (90 * 60) ∧
    (parse_time "30m1hr").map Timedelta.total = some (30 * 60) := by
  decide

/-- C8: a purge pass on an unknown group id, or on a group none of whose
tracked messages has reached the lifetime, attempts no deletion and leaves
the store exactly as it was. -/
theorem purge_noop (groups : List (Nat × GroupState)) (chat_id : Nat)
    (date : Int) (pinned : Option Nat)
    (h : lookupPair groups chat_id = none ∨
      ∃ g, lookupPair groups chat_id = some g ∧
        ∀ p ∈ g.messages, date - p.2.date < (g.lifetime : Int)) :
    purge groups chat_id date pinned = (groups, []) := by
  rcases h with h | ⟨g, hg, hall⟩
  · simp [purge, h]
  · have hfilter : (g.messages.map Prod.snd).filter
        (fun m => decide ((g.lifetime : Int) ≤ date - m.date)) = [] := by
      rw [List.filter_eq_nil_iff]
      intro m hm
      obtain ⟨p, hp, rfl⟩ := List.mem_map.mp hm
      simp only [decide_eq_true_eq]
      have := hall p hp
      omega
    have hsorted : sortedOld g date = [] := by
      unfold sortedOld
      rw [hfilter]
      rfl
    simp [purge, hg, purgeGroup, hsorted]

theorem purge_noop_witness :
    purge [(1, ⟨[(4, ⟨4, 90⟩)], none, 50⟩)] 1 100 none
      = ([(1, ⟨[(4, ⟨4, 90⟩)], none, 50⟩)], []) :=
  purge_noop [(1, ⟨[(4, ⟨4, 90⟩)], none, 50⟩)] 1 100 none
    (Or.inr ⟨⟨[(4, ⟨4, 90⟩)], none, 50⟩, by decide, by decide⟩)

/-- C10: `parse_time` is total — the fully-optional regex matches a
(possibly empty) prefix of every string, so the `if not parts` failure
branch is never taken — and consequently the `/lifetime` handler's
`except KeyError` usage-hint reply (`"Try: /lifetime 30d"`) is unreachable
for every argument. -/
theorem parse_time_total_and_usage_hint_unreachable :
    (∀ s : String, ∃ δ, parse_time s = some δ) ∧
    (∀ (groups : List (Nat × GroupState)) (chat_id : Nat) (arg : Option String)
        (date : Int) (pinned : Option Nat) (admins : List Nat) (sender : Nat),
      Reply.usageHint ∉ (lifetime groups chat_id arg date pinned admins sender).2) := by
  have htot : ∀ s : String, ∃ δ, parse_time s = some δ := fun s => ⟨_, rfl⟩
  refine ⟨htot, ?_⟩
  intro groups chat_id arg date pinned admins sender
  unfold lifetime
  split
  · cases hg : lookupPair groups chat_id with
    | none => simp
    | some g =>
        cases arg with
        | none => simp
        | some a =>
            obtain ⟨δ, hδ⟩ := htot a
            simp only [hδ]
            by_cases h0 : δ.total = 0
            · simp [h0]
            · simp [h0]
  · simp

/-- C5 counterexample: `/lifetime 0s` on an active group is rejected with
the `"Sorry Dave"` reply, but the group's state does *not* stay unchanged:
the handler still runs a purge pass (line 221), which here deletes the
expired tracked message 3 and sets `latest_deleted_message_id`. -/
theorem lifetime_zero_changes_state_cex :
    user_is_admin [9] 9 ∧
    parse_time "0s" = some ⟨0, 0, 0, 0⟩ ∧
    (lifetime [(1, ⟨[(3, ⟨3, 0⟩)], none, 10⟩)] 1 (some "0s") 100 none [9] 9).2
      = [Reply.sorryDave] ∧
    (lifetime [(1, ⟨[(3, ⟨3, 0⟩)], none, 10⟩)] 1 (some "0s") 100 none [9] 9).1
      = [(1, ⟨[], some 3, 10⟩)] ∧
    [(1, (⟨[], some 3, 10⟩ : GroupState))] ≠ [(1, ⟨[(3, ⟨3, 0⟩)], none, 10⟩)] := by
  decide

/-- C5 (amended): `/lifetime` with an argument parsing to a zero duration
(which covers malformed arguments, since no matching segment leaves the
zero `timedelta`) replies with the rejection message and leaves the group's
configured lifetime unchanged; the purge pass the handler always triggers
afterwards may still mutate the tracked messages and
`latest_deleted_message_id`. -/
theorem lifetime_zero_rejected (groups : List (Nat × GroupState)) (chat_id : Nat)
    (a : String) (date : Int) (pinned : Option Nat) (admins : List Nat)
    (sender : Nat) (g : GroupState) (δ : Timedelta)
    (hadmin : user_is_admin admins sender)
    (hg : lookupPair groups chat_id = some g)
    (hp : parse_time a = some δ) (h0 : δ.total = 0) :
    (lifetime groups chat_id (some a) date pinned admins sender).2 = [Reply.sorryDave] ∧
    ∃ g2, lookupPair (lifetime groups chat_id (some a) date pinned admins sender).1 chat_id
        = some g2 ∧ g2.lifetime = g.lifetime := by
  have hstep : lifetime groups chat_id (some a) date pinned admins sender
      = ((purge groups chat_id date pinned).1, [Reply.sorryDave]) := by
    simp [lifetime, hadmin, hg, hp, h0]
  rw [hstep]
  exact ⟨rfl, purge_preserves_lifetime groups chat_id date pinned hg⟩

theorem lifetime_zero_rejected_witness :
    (lifetime [(1, ⟨[], none, 10⟩)] 1 (some "0s") 100 none [9] 9).2 = [Reply.sorryDave] ∧
    ∃ g2, lookupPair (lifetime [(1, ⟨[], none, 10⟩)] 1 (some "0s") 100 none [9] 9).1 1
        = some g2 ∧ g2.lifetime = (⟨[], none, 10⟩ : GroupState).lifetime :=
  lifetime_zero_rejected [(1, ⟨[], none, 10⟩)] 1 "0s" 100 none [9] 9
    ⟨[], none, 10⟩ ⟨0, 0, 0, 0⟩ (by decide) (by decide) (by decide) (by decide)

/-- C6 counterexample: `/start` on an already-active group does not wipe
the state, but the tracked message history and
`latest_deleted_message_id` are *not* unchanged either: the `lifetime`
call at line 180 ends in a purge pass, which here deletes expired tracked
message 3 and records it as the latest deleted id. -/
theorem start_active_changes_messages_cex :
    user_is_admin [9] 9 ∧
    lookupPair [(1, ⟨[(3, ⟨3, 0⟩)], none, 10⟩)] 1
      = some (⟨[(3, ⟨3, 0⟩)], none, 10⟩ : GroupState) ∧
    (start [(1, ⟨[(3, ⟨3, 0⟩)], none, 10⟩)] 1 none 100 none [9] 9).1
      = [(1, ⟨[], some 3, 10⟩)] ∧
    (⟨[], some 3, 10⟩ : GroupState).messages
      ≠ (⟨[(3, ⟨3, 0⟩)], none, 10⟩ : GroupState).messages ∧
    (⟨[], some 3, 10⟩ : GroupState).latest_deleted_message_id
      ≠ (⟨[(3, ⟨3, 0⟩)], none, 10⟩ : GroupState).latest_deleted_message_id := by
  decide

/-- C6 (amended): `/start` on an already-active group does not reinitialize
the stored `GroupState`: no fresh state is written, the configured lifetime
is kept (and echoed in the `"Current message lifetime"` reply), and the
only store change is the purge pass the handler triggers. -/
theorem start_active_no_reset (groups : List (Nat × GroupState)) (chat_id : Nat)
    (date : Int) (pinned : Option Nat) (admins : List Nat) (sender : Nat)
    (g : GroupState) (hadmin : user_is_admin admins sender)
    (hg : lookupPair groups chat_id = some g) :
    start groups chat_id none date pinned admins sender
      = ((purge groups chat_id date pinned).1,
         [Reply.activated, Reply.currentLifetime g.lifetime]) ∧
    ∃ g2, lookupPair (purge groups chat_id date pinned).1 chat_id = some g2 ∧
      g2.lifetime = g.lifetime := by
  refine ⟨?_, purge_preserves_lifetime groups chat_id date pinned hg⟩
  simp [start, lifetime, hadmin, hg]

theorem start_active_no_reset_witness :
    start [(1, ⟨[], none, 10⟩)] 1 none 100 none [9] 9
      = ((purge [(1, ⟨[], none, 10⟩)] 1 100 none).1,
         [Reply.activated, Reply.currentLifetime 10]) ∧
    ∃ g2, lookupPair (purge [(1, ⟨[], none, 10⟩)] 1 100 none).1 1 = some g2 ∧
      g2.lifetime = (⟨[], none, 10⟩ : GroupState).lifetime :=
  start_active_no_reset [(1, ⟨[], none, 10⟩)] 1 100 none [9] 9
    ⟨[], none, 10⟩ (by decide) (by decide)

/-- C7 counterexample: `/help` is *not* silently ignored for a non-admin —
the handler has no admin check at all (lines 224-225) and replies
`'Help!'` to anyone. -/
theorem help_nonadmin_replies_cex :
    ¬ user_is_admin [] 5 ∧
    (help ([] : List (Nat × GroupState)) [] 5).2 = [Reply.helpText] ∧
    [Reply.helpText] ≠ ([] : List Reply) := by
  decide

/-- C7 (amended): a non-admin sender is silently ignored — no reply, store
untouched — by `/start`, `/stop` and `/lifetime`; `/help` never checks
admin status and replies `'Help!'` to anyone (leaving the store
untouched). -/
theorem nonadmin_commands_ignored (groups : List (Nat × GroupState))
    (chat_id : Nat) (arg : Option String) (date : Int) (pinned : Option Nat)
    (admins : List Nat) (sender : Nat) (h : ¬ user_is_admin admins sender) :
    start groups chat_id arg date pinned admins sender = (groups, []) ∧
    stop groups chat_id admins sender = (groups, []) ∧
    lifetime groups chat_id arg date pinned admins sender = (groups, []) ∧
    help groups admins sender = (groups, [Reply.helpText]) := by
  refine ⟨?_, ?_, ?_, rfl⟩ <;> simp [start, stop, lifetime, h]

theorem nonadmin_commands_ignored_witness :
    start [] 1 none 0 none [9] 5 = ([], []) ∧
    stop [] 1 [9] 5 = ([], []) ∧
    lifetime [] 1 none 0 none [9] 5 = ([], []) ∧
    help [] [9] 5 = ([], [Reply.helpText]) :=
  nonadmin_commands_ignored [] 1 none 0 none [9] 5 (by decide)

/-- C9, evaluated at the failing input: group 1 already tracks message 7
with timestamp 0, and the same message id arrives again with timestamp 50.
Line 236 tests `message_id in store['groups'][chat_id]` — membership among
the group dict's keys (the three field-name strings), which an integer
never satisfies — instead of membership in the `messages` dict, so the
handler re-records the message and overwrites the stored timestamp with
50, where the claim requires the original timestamp 0 to be kept. -/
theorem echo_overwrites_tracked_date :
    groupDictContainsInt ⟨[(7, ⟨7, 0⟩)], none, 1000000⟩ 7 = false ∧
    echo [(1, ⟨[(7, ⟨7, 0⟩)], none, 1000000⟩)] 1 7 50 none
      = [(1, ⟨[(7, ⟨7, 50⟩)], none, 1000000⟩)] := by
  decide
